import Mathlib

/-!
Verification development for the private package-index server
(backend abstraction, package index, file-system backend, registry).

The Python source is embedded shallowly: pydantic models become
structures, Python dicts become insertion-ordered association lists,
raised exceptions become `Except PyErr` values, and the local file
system of the file-system backend becomes an explicit `Storage` value
threaded through the operations.
-/

/-- Python exception values that the embedded code can raise. -/
inductive PyErr where
  | keyError (key : String)
  | assertionError
  | validationError (msg : String)
  | notImplementedError (msg : String)
  | typeError (msg : String)
deriving DecidableEq, Repr

/-- The printable message of a Python exception (`str(e)`).
A bare `assert` raises `AssertionError()` whose message is empty. -/
def PyErr.message : PyErr → String
  | .keyError k => k
  | .assertionError => ""
  | .validationError m => m
  | .notImplementedError m => m
  | .typeError m => m

/-- Does the character list `s` start with `pat`? -/
def listStartsWith : List Char → List Char → Bool
  | _, [] => true
  | [], _ :: _ => false
  | c :: s, p :: ps => c == p && listStartsWith s ps

/-- Does `pat` occur as a contiguous run inside `s`? -/
def listContainsSub : List Char → List Char → Bool
  | [], pat => pat.isEmpty
  | c :: rest, pat => listStartsWith (c :: rest) pat || listContainsSub rest pat

/-- Substring test: `containsSub s pat = true` iff `pat` occurs in `s`
(models Python's `pat in s`). -/
def containsSub (s pat : String) : Bool :=
  listContainsSub s.data pat.data

/-- `s.endswith(pat)` over the underlying characters. -/
def strEndsWith (s pat : String) : Bool :=
  decide (pat.data.length ≤ s.data.length) &&
    s.data.drop (s.data.length - pat.data.length) == pat.data

/-- Remove the last `k` characters (Python `name[:-k]`). -/
def strDropRight (s : String) (k : Nat) : String :=
  String.mk (s.data.take (s.data.length - k))

/-- Lookup in an insertion-ordered association list
(models Python `dict.get`; keys are unique in every dict we build). -/
def dictGet {α : Type} : List (String × α) → String → Option α
  | [], _ => none
  | (k, v) :: rest, key => if k = key then some v else dictGet rest key

/-- Update in an insertion-ordered association list (models Python
`d[key] = v`): replaces in place when the key exists, appends otherwise. -/
def dictSet {α : Type} : List (String × α) → String → α → List (String × α)
  | [], key, v => [(key, v)]
  | (k, w) :: rest, key, v =>
      if k = key then (key, v) :: rest else (k, w) :: dictSet rest key v

/-- Python truthiness of `d.get(key)` for string-valued dicts:
`None` and the empty string are falsy. -/
def pyTruthy : Option String → Bool
  | some s => !(s == "")
  | none => false

/-- Characters folded by distribution-name normalization. -/
def isNormPunct (c : Char) : Bool :=
  c = '-' || c = '_' || c = '.'

/-- Collapse consecutive runs of a dash into a single dash. -/
def collapseDashes : List Char → List Char
  | [] => []
  | [c] => [c]
  | c :: c2 :: rest =>
      if c = '-' && c2 = '-' then collapseDashes (c2 :: rest)
      else c :: collapseDashes (c2 :: rest)

/-- Modelled from the spec: `normalize_distribution_name` lives in
`private_pypi/utils.py`, which is not part of the provided sources.
The spec describes it as case-folding plus punctuation folding in the
PEP-503 style ("Foo_Bar" becomes "foo-bar"): runs of `-`, `_`, `.` are
replaced by a single `-` and the result is lowercased. -/
def normalize_distribution_name (name : String) : String :=
  String.mk (collapseDashes (name.data.map
    (fun c => if isNormPunct c then '-' else c.toLower)))

/-- `PkgRef` (backend.py): one published package file. -/
structure PkgRef where
  type : String
  distrib : String
  package : String
  ext : String
  sha256 : String
  meta : List (String × String)
deriving DecidableEq, Repr

/-- `PkgRepoIndex` (backend.py): two lookup structures over one set of
package references, both modelled as insertion-ordered association
lists, mirroring the two Python dicts. -/
structure PkgRepoIndex where
  distrib_to_pkg_refs : List (String × List PkgRef)
  package_to_pkg_ref : List (String × PkgRef)
deriving DecidableEq, Repr

/-- `self._distrib_to_pkg_refs.setdefault(d, []).append(r)` as one
operation: append `r` to the bucket of `d`, creating the bucket at the
end when absent (Python dict insertion order). -/
def appendToBucket : List (String × List PkgRef) → String → PkgRef →
    List (String × List PkgRef)
  | [], d, r => [(d, [r])]
  | (k, l) :: rest, d, r =>
      if k = d then (k, l ++ [r]) :: rest
      else (k, l) :: appendToBucket rest d r

/-- `PkgRepoIndex.add_pkg_ref` (backend.py lines 334-342): raises
`KeyError` on a duplicate package identifier before touching either
structure; otherwise appends to the distribution bucket and the
package map. -/
def PkgRepoIndex.add_pkg_ref (idx : PkgRepoIndex) (ref : PkgRef) :
    Except String PkgRepoIndex :=
  if (dictGet idx.package_to_pkg_ref ref.package).isSome then
    .error ("package=" ++ ref.package ++ " duplicated.")
  else
    .ok { distrib_to_pkg_refs := appendToBucket idx.distrib_to_pkg_refs ref.distrib ref,
          package_to_pkg_ref := idx.package_to_pkg_ref ++ [(ref.package, ref)] }

/-- The empty index. -/
def PkgRepoIndex.empty : PkgRepoIndex := ⟨[], []⟩

/-- `PkgRepoIndex.__init__` (backend.py lines 327-332): the bulk
constructor folds `add_pkg_ref` over the given references; the first
duplicate aborts construction. -/
def buildPkgRepoIndex (refs : List PkgRef) : Except String PkgRepoIndex :=
  refs.foldlM PkgRepoIndex.add_pkg_ref PkgRepoIndex.empty

/-- `PkgRepoIndex.all_distributions` (backend.py): the dict keys. -/
def PkgRepoIndex.all_distributions (idx : PkgRepoIndex) : List String :=
  idx.distrib_to_pkg_refs.map Prod.fst

/-- `PkgRepoIndex.get_pkg_refs` (backend.py lines 348-350): normalizes
the query before the bucket lookup. -/
def PkgRepoIndex.get_pkg_refs (idx : PkgRepoIndex) (query_distrib : String) :
    Option (List PkgRef) :=
  dictGet idx.distrib_to_pkg_refs (normalize_distribution_name query_distrib)

/-- `dump_pkg_repo_index` (pkg_repos/__init__.py lines 130-135): one
table entry per distribution, in key order, each holding the bucket's
references in order.  TOML serialization (`write_toml`, in the missing
`private_pypi/utils.py`) is modelled from the spec as lossless, so the
serialized form keeps the `PkgRef` values themselves.  Iterating over
`None` when a bucket lookup fails is Python's `TypeError`. -/
def dump_pkg_repo_index (idx : PkgRepoIndex) :
    Except PyErr (List (String × List PkgRef)) :=
  idx.all_distributions.mapM (fun d =>
    match idx.get_pkg_refs d with
    | some refs => .ok (d, refs)
    | none => .error (.typeError "NoneType object is not iterable"))

/-- `load_pkg_repo_index` (pkg_repos/__init__.py lines 138-142): chains
the per-distribution sequences in table order and rebuilds the index
with the bulk constructor (`build_pkg_repo_index_from_pkg_refs`, whose
module is absent from the sources; per the spec it is the Index bulk
rebuild, i.e. `PkgRepoIndex.__init__`). `read_toml` is modelled from
the spec as the lossless inverse of `write_toml`. -/
def load_pkg_repo_index (struct : List (String × List PkgRef)) :
    Except String PkgRepoIndex :=
  buildPkgRepoIndex (struct.flatMap Prod.snd)

/-! ## File-system backend (backends/file_system/impl.py) -/

/-- `UploadPackageStatus` (backend.py). -/
inductive UploadPackageStatus where
  | SUCCEEDED
  | FAILED
deriving DecidableEq, Repr

/-- `UploadPackageResult` (backend.py). -/
structure UploadPackageResult where
  status : UploadPackageStatus
  message : String := ""
deriving DecidableEq, Repr

/-- `UploadPackageContext` (backend.py lines 50-56); the source file at
`path` is modelled by carrying its content alongside (see
`mkUploadPackageContext`). -/
structure UploadPackageContext where
  filename : String
  path : String
  meta : List (String × String)
  failed : Bool := false
  message : String := ""
deriving DecidableEq, Repr

/-- `UploadPackageContext.__post_init__` (backend.py lines 58-74),
including the two `assert` statements.  `sha256Hex` stands for the
SHA-256 hex digest of a file's content (`update_hash_algo_with_file`
plus `hexdigest`, from the missing `private_pypi/utils.py`;
per the spec it computes the hex-encoded SHA-256 of the file content),
and `srcContent` is the content of the file at `path`.
Note: when neither `distrib` nor `name` is present the code sets
`failed`/`message` but then evaluates `assert self.meta_distrib`, whose
property access `self.meta['distrib']` raises `KeyError('distrib')`. -/
def mkUploadPackageContext (sha256Hex : String → String)
    (filename path srcContent : String) (meta : List (String × String)) :
    Except PyErr UploadPackageContext :=
  -- Fill distribution name.
  let step1 : List (String × String) × Bool × String :=
    if pyTruthy (dictGet meta "distrib") then (meta, false, "")
    else
      match dictGet meta "name" with
      | some name =>
          if name == "" then (meta, true, "Cannot generate the distribution name.")
          else (dictSet meta "distrib" (normalize_distribution_name name), false, "")
      | none => (meta, true, "Cannot generate the distribution name.")
  -- assert self.meta_distrib
  match dictGet step1.1 "distrib" with
  | none => .error (.keyError "distrib")
  | some d =>
    if d == "" then .error .assertionError
    else
      -- SHA256 checksum.
      let meta2 :=
        if pyTruthy (dictGet step1.1 "sha256") then step1.1
        else dictSet step1.1 "sha256" (sha256Hex srcContent)
      -- assert self.meta_sha256
      match dictGet meta2 "sha256" with
      | none => .error (.keyError "sha256")
      | some s =>
        if s == "" then .error .assertionError
        else .ok { filename := filename, path := path, meta := meta2,
                   failed := step1.2.1, message := step1.2.2 }

/-- Content of one stored file: a copied package file or a TOML
metadata file (TOML modelled from the spec as lossless). -/
inductive FileData where
  | raw (content : String)
  | toml (meta : List (String × String))
deriving DecidableEq, Repr

/-- The backend's storage directory: distribution directories in
creation order, each holding files in creation order. -/
abbrev Storage := List (String × List (String × FileData))

/-- `META_SUFFIX` (impl.py line 78). -/
def META_SUFFIX : String := ".meta"

/-- `LOCK_TIMEOUT` (impl.py line 77): seconds of bounded wait for the
per-filename exclusive lock. -/
def LOCK_TIMEOUT : ℚ := 1 / 2

/-- `makedirs(path, exist_ok=True)` for a distribution directory
(`_distrib_path`, impl.py lines 128-131). -/
def ensureDir (st : Storage) (d : String) : Storage :=
  if (dictGet st d).isSome then st else st ++ [(d, [])]

/-- `os.path.exists` for `storage/<d>/<fn>`. -/
def fileExistsIn (st : Storage) (d fn : String) : Bool :=
  match dictGet st d with
  | some files => (dictGet files fn).isSome
  | none => false

/-- Write (create or overwrite) the file `storage/<d>/<fn>`. -/
def setFile : Storage → String → String → FileData → Storage
  | [], d, fn, data => [(d, [(fn, data)])]
  | (k, files) :: rest, d, fn, data =>
      if k = d then (k, dictSet files fn data) :: rest
      else (k, files) :: setFile rest d fn data

/-- `FileSystemPkgRepo._upload_package` (impl.py lines 141-162).
`lockAcquired` records whether the `FileLock` on
`_package_lock_path(filename)` was obtained within `LOCK_TIMEOUT`; the
`False` case is the `except TimeoutError` branch.  Inside the lock,
`_package_path`/`_package_meta_path` first create the distribution
directory, then the pre-existing package+metadata pair is treated as a
conflict; otherwise the package file is copied and the metadata TOML
written. -/
def uploadPackageLocked (lockAcquired : Bool) (st : Storage)
    (ctx : UploadPackageContext) (srcContent : String) :
    UploadPackageContext × Storage :=
  if lockAcquired then
    let d := (dictGet ctx.meta "distrib").getD ""  -- ctx.meta_distrib (present by construction)
    let st1 := ensureDir st d
    if fileExistsIn st1 d ctx.filename &&
        fileExistsIn st1 d (ctx.filename ++ META_SUFFIX) then
      ({ ctx with failed := true, message := "Package exists." }, st1)
    else
      (ctx, setFile (setFile st1 d ctx.filename (.raw srcContent))
              d (ctx.filename ++ META_SUFFIX) (.toml ctx.meta))
  else
    ({ ctx with failed := true, message := "_upload_package: Lock acquire timeout." }, st)

/-- `FileSystemPkgRepo.upload_package` (impl.py lines 164-176): builds
the context (whose `__post_init__` may raise), runs the action chain,
and converts `ctx.failed` into the result status. -/
def uploadPackage (sha256Hex : String → String) (lockAcquired : Bool)
    (st : Storage) (filename : String) (meta : List (String × String))
    (path srcContent : String) :
    Except PyErr (UploadPackageResult × Storage) :=
  match mkUploadPackageContext sha256Hex filename path srcContent meta with
  | .error e => .error e
  | .ok ctx =>
    if ctx.failed then
      .ok ({ status := .FAILED, message := ctx.message }, st)
    else
      let r := uploadPackageLocked lockAcquired st ctx srcContent
      .ok ({ status := if r.1.failed then .FAILED else .SUCCEEDED,
             message := r.1.message }, r.2)

/-- `FileSystemPkgRef` (impl.py lines 60-68): extends `PkgRef` with two
required path fields. -/
structure FileSystemPkgRef extends PkgRef where
  package_path : String
  meta_path : String
deriving DecidableEq, Repr

/-- The constructor call `FileSystemPkgRef(package_path=..., meta_path=...)`
as written in `collect_all_published_packages` (impl.py lines 198-202):
pydantic validates required fields at construction, and the inherited
fields `distrib`, `package`, `ext`, `sha256`, `meta` have no defaults
and are not passed, so the call raises a validation error. -/
def mkFileSystemPkgRefFromPaths (package_path meta_path : String) :
    Except PyErr FileSystemPkgRef :=
  .error (.validationError
    ("field required: distrib, package, ext, sha256, meta; package_path=" ++
      package_path ++ " meta_path=" ++ meta_path))

/-- Split one distribution directory's children into package files and
metadata files, keyed by filename stem (impl.py lines 189-195). -/
def splitDirChildren (files : List (String × FileData)) :
    List (String × String) × List (String × String) :=
  files.foldl (fun (acc : List (String × String) × List (String × String)) f =>
    let name := f.1
    if strEndsWith name META_SUFFIX then
      (acc.1, dictSet acc.2 (strDropRight name META_SUFFIX.data.length) name)
    else
      (dictSet acc.1 name name, acc.2))
    ([], [])

/-- `FileSystemPkgRepo.collect_all_published_packages` (impl.py lines
178-204): for each distribution directory, pair package files with
their sidecar metadata files by filename stem and construct a
`FileSystemPkgRef` for each paired stem. -/
def collectAllPublishedPackages (st : Storage) :
    Except PyErr (List FileSystemPkgRef) :=
  st.foldlM (fun pkg_refs dir =>
    let split := splitDirChildren dir.2
    split.1.foldlM (fun acc fp =>
      if (dictGet split.2 fp.1).isSome then
        (mkFileSystemPkgRefFromPaths fp.2 ((dictGet split.2 fp.1).getD "")).map
          (fun ref => acc ++ [ref])
      else .ok acc) pkg_refs) []

/-- Mutable private state of `FileSystemPkgRepo`
(`FileSystemPkgRepoPrivateFields`, impl.py lines 71-74) together with
the storage directory it operates on. -/
structure FileSystemPkgRepoState where
  pvt_ready : Bool
  pvt_err_msg : String
  storage : Storage
deriving DecidableEq, Repr

/-- `FileSystemPkgRepo.__init__` (impl.py lines 94-106): starts ready;
a missing local cache directory flips the state to not-ready with the
diagnostic `Cache path not exists`; the storage directory is created
(`makedirs`) regardless. -/
def fileSystemPkgRepoInit (cacheIsDir : Bool) : FileSystemPkgRepoState :=
  { pvt_ready := cacheIsDir,
    pvt_err_msg := if cacheIsDir then "" else "Cache path not exists",
    storage := [] }

/-- `FileSystemPkgRepo.ready` (impl.py lines 112-113). -/
def FileSystemPkgRepoState.ready (st : FileSystemPkgRepoState) : Bool × String :=
  (st.pvt_ready, st.pvt_err_msg)

/-- `FileSystemPkgRepo.record_error` (impl.py lines 108-110). -/
def FileSystemPkgRepoState.record_error (st : FileSystemPkgRepoState)
    (error_message : String) : FileSystemPkgRepoState :=
  { st with pvt_ready := false, pvt_err_msg := error_message }

/-- `upload_package` at the repository level: operates on the storage
directory; the method body never consults the readiness state. -/
def FileSystemPkgRepoState.upload_package (st : FileSystemPkgRepoState)
    (sha256Hex : String → String) (lockAcquired : Bool) (filename : String)
    (meta : List (String × String)) (path srcContent : String) :
    Except PyErr (UploadPackageResult × FileSystemPkgRepoState) :=
  (uploadPackage sha256Hex lockAcquired st.storage filename meta path srcContent).map
    (fun r => (r.1, { st with storage := r.2 }))

/-- `collect_all_published_packages` at the repository level: also
never consults the readiness state. -/
def FileSystemPkgRepoState.collect_all_published_packages
    (st : FileSystemPkgRepoState) : Except PyErr (List FileSystemPkgRef) :=
  collectAllPublishedPackages st.storage

/-! ## Backend registry (backend.py, `BackendInstanceManager`) -/

/-- `PkgRepoConfig` (backend.py lines 108-112). -/
structure PkgRepoConfig where
  type : String
  name : String
  max_file_bytes : Int := 1024 ^ 3
  sync_index_interval : Int := 60
deriving DecidableEq, Repr

/-- `PkgRepoSecret` (backend.py lines 115-119). -/
structure PkgRepoSecret where
  type : String
  name : String
  raw : String
deriving DecidableEq, Repr

/-- `LocalPaths` (backend.py lines 25-30). -/
structure LocalPaths where
  index : String
  log : String
  lock : String
  job : String
  cache : String
deriving DecidableEq, Repr

/-- `PkgRepo` base data (backend.py lines 138-142). -/
structure PkgRepo where
  type : String
  config : PkgRepoConfig
  secret : PkgRepoSecret
  local_paths : LocalPaths
deriving DecidableEq, Repr

/-- Keyword arguments passed to the registry constructors: a key-value
bundle whose `type` entry selects the backend. -/
abbrev Kwargs := List (String × String)

/-- `BackendRegistration` (backend.py lines 181-186): the bundle of
four concrete constructors registered for one backend type, each of
which may itself raise (e.g. pydantic validation). -/
structure BackendRegistration where
  type : String
  pkg_repo_config_cls : Kwargs → Except PyErr PkgRepoConfig
  pkg_repo_secret_cls : Kwargs → Except PyErr PkgRepoSecret
  pkg_repo_cls : Kwargs → Except PyErr PkgRepo
  pkg_ref_cls : Kwargs → Except PyErr PkgRef

/-- The manager's `_type_to_registration` mapping. -/
abbrev Registry := List (String × BackendRegistration)

/-- `BackendInstanceManager._registration` (backend.py lines 234-237):
two bare `assert` statements (`'type' in kwargs`, membership of the
type tag) followed by the dictionary lookup; a failing bare `assert`
raises `AssertionError()` with an empty message. -/
def registration (reg : Registry) (kwargs : Kwargs) :
    Except PyErr BackendRegistration :=
  match dictGet kwargs "type" with
  | none => .error .assertionError
  | some t =>
    match dictGet reg t with
    | none => .error .assertionError
    | some r => .ok r

/-- `BackendInstanceManager.create_pkg_repo_config` (backend.py line 239). -/
def create_pkg_repo_config (reg : Registry) (kwargs : Kwargs) :
    Except PyErr PkgRepoConfig :=
  (registration reg kwargs).bind (fun r => r.pkg_repo_config_cls kwargs)

/-- `BackendInstanceManager.create_pkg_repo_secret` (backend.py line 242). -/
def create_pkg_repo_secret (reg : Registry) (kwargs : Kwargs) :
    Except PyErr PkgRepoSecret :=
  (registration reg kwargs).bind (fun r => r.pkg_repo_secret_cls kwargs)

/-- `BackendInstanceManager.create_pkg_repo` (backend.py line 245). -/
def create_pkg_repo (reg : Registry) (kwargs : Kwargs) :
    Except PyErr PkgRepo :=
  (registration reg kwargs).bind (fun r => r.pkg_repo_cls kwargs)

/-- `BackendInstanceManager.create_pkg_ref` (backend.py line 248). -/
def create_pkg_ref (reg : Registry) (kwargs : Kwargs) :
    Except PyErr PkgRef :=
  (registration reg kwargs).bind (fun r => r.pkg_ref_cls kwargs)

/-- A flat file store (path to serialized content) used by the bulk
load/dump tooling. -/
abbrev FileStore := List (String × String)

/-- `BackendInstanceManager.dump_pkg_repo_secrets` (backend.py lines
288-290): the body is a single
`raise NotImplementedError('Should not dump secrets.')`, executed
before any file is opened or written. -/
def dump_pkg_repo_secrets (fs : FileStore) (_path : String)
    (_pkg_repo_secrets : List PkgRepoSecret) : Except PyErr Unit × FileStore :=
  (.error (.notImplementedError "Should not dump secrets."), fs)

/-! ## Auxiliary definitions for the statements and proofs -/

deriving instance DecidableEq for Except

/-- All references of an index in bucket order (what
`chain.from_iterable(struct.values())` iterates during a load). -/
def flatRefs : List (String × List PkgRef) → List PkgRef
  | [] => []
  | b :: rest => b.2 ++ flatRefs rest

/-- The `package identifier → reference` entries generated when a list
of references is inserted in order. -/
def entriesOf (refs : List PkgRef) : List (String × PkgRef) :=
  refs.map (fun r => (r.package, r))

/-- Structural invariant of every reachable `PkgRepoIndex`: bucket keys
are distinct, every reference sits in the bucket named by its own
distribution, buckets are nonempty, keys are normalization-fixed, and
the package map holds exactly one entry per stored reference. -/
structure IndexInv (idx : PkgRepoIndex) : Prop where
  keys_nodup : (idx.distrib_to_pkg_refs.map Prod.fst).Nodup
  buckets_homog : ∀ b ∈ idx.distrib_to_pkg_refs, ∀ r ∈ b.2, r.distrib = b.1
  buckets_nonempty : ∀ b ∈ idx.distrib_to_pkg_refs, b.2 ≠ []
  keys_norm : ∀ b ∈ idx.distrib_to_pkg_refs,
    normalize_distribution_name b.1 = b.1
  pkg_perm : idx.package_to_pkg_ref.Perm (entriesOf (flatRefs idx.distrib_to_pkg_refs))
  pkg_keys_nodup : (idx.package_to_pkg_ref.map Prod.fst).Nodup

/-- A sample reference used to instantiate hypotheses at concrete inputs. -/
def c1Ref : PkgRef := ⟨"file_system", "pkg", "pkg-1.0.tar.gz", "tar.gz", "H", []⟩

/-- Sample references and a sample index (two distributions with
interleaved insertion order) used to instantiate the round-trip
property at a concrete input. -/
def c6RefA1 : PkgRef := ⟨"file_system", "alpha", "alpha-1.0.tar.gz", "tar.gz", "h1", []⟩

/-- Second sample reference (distribution `beta`). -/
def c6RefB : PkgRef := ⟨"file_system", "beta", "beta-1.0.tar.gz", "tar.gz", "h2", []⟩

/-- Third sample reference (back to distribution `alpha`). -/
def c6RefA2 : PkgRef := ⟨"file_system", "alpha", "alpha-2.0.tar.gz", "tar.gz", "h3", []⟩

/-- The index built from the three sample references. -/
def c6Index : PkgRepoIndex :=
  ⟨[("alpha", [c6RefA1, c6RefA2]), ("beta", [c6RefB])],
   [("alpha-1.0.tar.gz", c6RefA1), ("beta-1.0.tar.gz", c6RefB),
    ("alpha-2.0.tar.gz", c6RefA2)]⟩

/-- A sample registry registration (the file-system backend's bundle
shape) used to instantiate the registry dispatch at concrete inputs. -/
def demoRegistration : BackendRegistration :=
  { type := "file_system",
    pkg_repo_config_cls := fun _ => .ok ⟨"file_system", "demo", 5 * 1024 ^ 3 - 1, 60⟩,
    pkg_repo_secret_cls := fun _ => .ok ⟨"file_system", "demo", "foo"⟩,
    pkg_repo_cls := fun _ => .error (.validationError "field required"),
    pkg_ref_cls := fun _ => .error (.validationError "field required") }

/-! ## Basic lemmas about association lists -/

theorem dictGet_eq_none_iff {α : Type} (l : List (String × α)) (k : String) :
    dictGet l k = none ↔ k ∉ l.map Prod.fst := by
  induction l with
  | nil => simp [dictGet]
  | cons b rest ih =>
    obtain ⟨kb, vb⟩ := b
    by_cases h : kb = k <;> simp [dictGet, h, ih, Ne.symm]

theorem dictGet_mem {α : Type} {l : List (String × α)} {k : String} {v : α}
    (h : dictGet l k = some v) : (k, v) ∈ l := by
  induction l with
  | nil => simp [dictGet] at h
  | cons b rest ih =>
    obtain ⟨kb, vb⟩ := b
    by_cases hk : kb = k
    · subst hk
      simp [dictGet] at h
      simp [h]
    · simp [dictGet, hk] at h
      exact List.mem_cons_of_mem _ (ih h)

theorem dictGet_of_mem {α : Type} {l : List (String × α)} {k : String} {v : α}
    (hnd : (l.map Prod.fst).Nodup) (hmem : (k, v) ∈ l) : dictGet l k = some v := by
  induction l with
  | nil => simp at hmem
  | cons b rest ih =>
    obtain ⟨kb, vb⟩ := b
    simp only [List.map_cons, List.nodup_cons] at hnd
    rcases List.mem_cons.mp hmem with heq | htail
    · injection heq with h1 h2
      subst h1
      subst h2
      simp [dictGet]
    · have hkbk : kb ≠ k := by
        intro hcontra
        subst hcontra
        exact hnd.1 (by simpa using List.mem_map_of_mem Prod.fst htail)
      simp [dictGet, hkbk, ih hnd.2 htail]

theorem dictGet_append_of_none {α : Type} {l1 : List (String × α)}
    (l2 : List (String × α)) {k : String} (h : dictGet l1 k = none) :
    dictGet (l1 ++ l2) k = dictGet l2 k := by
  induction l1 with
  | nil => simp
  | cons b rest ih =>
    obtain ⟨kb, vb⟩ := b
    by_cases hk : kb = k
    · simp [dictGet, hk] at h
    · simp [dictGet, hk] at h ⊢
      exact ih h

theorem perm_dictGet {α : Type} {l1 l2 : List (String × α)} (hp : l1.Perm l2)
    (hnd : (l1.map Prod.fst).Nodup) (k : String) : dictGet l1 k = dictGet l2 k := by
  have hnd2 : (l2.map Prod.fst).Nodup := ((hp.map Prod.fst).nodup_iff).mp hnd
  cases h1 : dictGet l1 k with
  | none =>
    have : k ∉ l2.map Prod.fst := by
      intro hmem
      exact (dictGet_eq_none_iff l1 k).mp h1 (((hp.map Prod.fst).mem_iff).mpr hmem)
    exact ((dictGet_eq_none_iff l2 k).mpr this).symm
  | some v =>
    exact ((dictGet_of_mem hnd2 (hp.mem_iff.mp (dictGet_mem h1)))).symm

/-! ## Lemmas about the index structure (used for the round-trip) -/

theorem appendToBucket_keys (l : List (String × List PkgRef)) (d : String) (r : PkgRef) :
    (appendToBucket l d r).map Prod.fst =
      if d ∈ l.map Prod.fst then l.map Prod.fst else l.map Prod.fst ++ [d] := by
  induction l with
  | nil => simp [appendToBucket]
  | cons b rest ih =>
    obtain ⟨kb, bl⟩ := b
    by_cases h : kb = d
    · subst h
      simp [appendToBucket]
    · simp only [appendToBucket, if_neg h, List.map_cons, ih]
      by_cases hmem : d ∈ rest.map Prod.fst <;>
        simp [hmem, h, Ne.symm h]

theorem appendToBucket_fresh {l : List (String × List PkgRef)} {d : String} (r : PkgRef)
    (h : d ∉ l.map Prod.fst) : appendToBucket l d r = l ++ [(d, [r])] := by
  induction l with
  | nil => simp [appendToBucket]
  | cons b rest ih =>
    obtain ⟨kb, bl⟩ := b
    simp only [List.map_cons, List.mem_cons] at h
    push_neg at h
    simp [appendToBucket, Ne.symm h.1, ih h.2]

theorem appendToBucket_last {l : List (String × List PkgRef)} {d : String}
    (bl : List PkgRef) (r : PkgRef) (h : d ∉ l.map Prod.fst) :
    appendToBucket (l ++ [(d, bl)]) d r = l ++ [(d, bl ++ [r])] := by
  induction l with
  | nil => simp [appendToBucket]
  | cons b rest ih =>
    obtain ⟨kb, bl2⟩ := b
    simp only [List.map_cons, List.mem_cons] at h
    push_neg at h
    simp [appendToBucket, Ne.symm h.1, ih h.2]

theorem appendToBucket_homog {l : List (String × List PkgRef)} {d : String} {r : PkgRef}
    (hl : ∀ b ∈ l, ∀ r2 ∈ b.2, r2.distrib = b.1) (hr : r.distrib = d) :
    ∀ b ∈ appendToBucket l d r, ∀ r2 ∈ b.2, r2.distrib = b.1 := by
  induction l with
  | nil =>
    simp only [appendToBucket]
    intro b hb r2 hr2
    simp at hb
    subst hb
    simp at hr2
    subst hr2
    exact hr
  | cons b0 rest ih =>
    obtain ⟨kb, bl⟩ := b0
    by_cases h : kb = d
    · subst h
      simp only [appendToBucket, if_pos rfl]
      intro b hb r2 hr2
      rcases List.mem_cons.mp hb with heq | htail
      · subst heq
        simp only at hr2 ⊢
        rcases List.mem_append.mp hr2 with hin | hin
        · exact hl (kb, bl) (List.mem_cons_self _ _) r2 hin
        · simp at hin
          subst hin
          exact hr
      · exact hl b (List.mem_cons_of_mem _ htail) r2 hr2
    · simp only [appendToBucket, if_neg h]
      intro b hb r2 hr2
      rcases List.mem_cons.mp hb with heq | htail
      · subst heq
        exact hl (kb, bl) (List.mem_cons_self _ _) r2 hr2
      · exact ih (fun b2 hb2 => hl b2 (List.mem_cons_of_mem _ hb2)) b htail r2 hr2

theorem appendToBucket_nonempty {l : List (String × List PkgRef)} {d : String} {r : PkgRef}
    (hl : ∀ b ∈ l, b.2 ≠ []) :
    ∀ b ∈ appendToBucket l d r, b.2 ≠ [] := by
  induction l with
  | nil =>
    simp [appendToBucket]
  | cons b0 rest ih =>
    obtain ⟨kb, bl⟩ := b0
    by_cases h : kb = d
    · subst h
      simp only [appendToBucket, if_pos rfl]
      intro b hb
      rcases List.mem_cons.mp hb with heq | htail
      · subst heq
        simp
      · exact hl b (List.mem_cons_of_mem _ htail)
    · simp only [appendToBucket, if_neg h]
      intro b hb
      rcases List.mem_cons.mp hb with heq | htail
      · subst heq
        exact hl (kb, bl) (List.mem_cons_self _ _)
      · exact ih (fun b2 hb2 => hl b2 (List.mem_cons_of_mem _ hb2)) b htail

theorem flatRefs_append (l1 l2 : List (String × List PkgRef)) :
    flatRefs (l1 ++ l2) = flatRefs l1 ++ flatRefs l2 := by
  induction l1 with
  | nil => simp [flatRefs]
  | cons b rest ih => simp [flatRefs, ih]

theorem flatRefs_appendToBucket_perm (l : List (String × List PkgRef)) (d : String)
    (r : PkgRef) : (flatRefs (appendToBucket l d r)).Perm (flatRefs l ++ [r]) := by
  induction l with
  | nil => simp [appendToBucket, flatRefs]
  | cons b rest ih =>
    obtain ⟨kb, bl⟩ := b
    by_cases h : kb = d
    · subst h
      simp only [appendToBucket, if_pos rfl, flatRefs]
      rw [List.append_assoc, List.append_assoc]
      exact List.Perm.append_left bl List.perm_append_comm
    · simp only [appendToBucket, if_neg h, flatRefs]
      rw [List.append_assoc]
      exact List.Perm.append_left bl ih

theorem entriesOf_append (a b : List PkgRef) :
    entriesOf (a ++ b) = entriesOf a ++ entriesOf b := by
  simp [entriesOf]

theorem entriesOf_keys (rs : List PkgRef) :
    (entriesOf rs).map Prod.fst = rs.map (fun r => r.package) := by
  simp [entriesOf, List.map_map]

theorem except_foldlM_cons_ok {ε α β : Type} (f : β → α → Except ε β) (b : β) (a : α)
    (l : List α) (out : β) (h : (a :: l).foldlM f b = .ok out) :
    ∃ mid, f b a = .ok mid ∧ l.foldlM f mid = .ok out := by
  rw [List.foldlM_cons] at h
  cases hf : f b a with
  | error e =>
    rw [hf] at h
    exact absurd h (fun hcon => Except.noConfusion hcon)
  | ok mid =>
    rw [hf] at h
    exact ⟨mid, rfl, h⟩

theorem inv_empty : IndexInv PkgRepoIndex.empty := by
  constructor <;> simp [PkgRepoIndex.empty, flatRefs, entriesOf]

theorem add_preserves_inv {idx idx2 : PkgRepoIndex} {ref : PkgRef}
    (hnorm : normalize_distribution_name ref.distrib = ref.distrib)
    (hadd : idx.add_pkg_ref ref = .ok idx2) (hinv : IndexInv idx) : IndexInv idx2 := by
  unfold PkgRepoIndex.add_pkg_ref at hadd
  by_cases hdup : (dictGet idx.package_to_pkg_ref ref.package).isSome
  · rw [if_pos hdup] at hadd
    exact absurd hadd (by simp)
  · rw [if_neg hdup] at hadd
    injection hadd with hadd
    subst hadd
    have hfresh : ref.package ∉ idx.package_to_pkg_ref.map Prod.fst := by
      rw [← dictGet_eq_none_iff]
      exact Option.not_isSome_iff_eq_none.mp hdup
    refine ⟨?_, ?_, ?_, ?_, ?_, ?_⟩
    · simp only [appendToBucket_keys]
      by_cases hd : ref.distrib ∈ idx.distrib_to_pkg_refs.map Prod.fst
      · simpa [hd] using hinv.keys_nodup
      · simp only [hd, if_false]
        exact List.Nodup.append hinv.keys_nodup (List.nodup_singleton _)
          (by simpa using hd)
    · exact appendToBucket_homog hinv.buckets_homog rfl
    · exact appendToBucket_nonempty hinv.buckets_nonempty
    · intro b hb
      have hbk : b.1 ∈ (appendToBucket idx.distrib_to_pkg_refs ref.distrib ref).map
          Prod.fst := List.mem_map_of_mem Prod.fst hb
      rw [appendToBucket_keys] at hbk
      by_cases hd2 : ref.distrib ∈ idx.distrib_to_pkg_refs.map Prod.fst
      · rw [if_pos hd2] at hbk
        obtain ⟨borig, hborig, hbfst⟩ := List.mem_map.mp hbk
        rw [← hbfst]
        exact hinv.keys_norm borig hborig
      · rw [if_neg hd2] at hbk
        rcases List.mem_append.mp hbk with hin | hin
        · obtain ⟨borig, hborig, hbfst⟩ := List.mem_map.mp hin
          rw [← hbfst]
          exact hinv.keys_norm borig hborig
        · simp at hin
          rw [hin]
          exact hnorm
    · show (idx.package_to_pkg_ref ++ [(ref.package, ref)]).Perm _
      have h1 : (idx.package_to_pkg_ref ++ [(ref.package, ref)]).Perm
          (entriesOf (flatRefs idx.distrib_to_pkg_refs) ++ [(ref.package, ref)]) :=
        List.Perm.append_right _ hinv.pkg_perm
      have h2 : (entriesOf (flatRefs (appendToBucket idx.distrib_to_pkg_refs
          ref.distrib ref))).Perm
          (entriesOf (flatRefs idx.distrib_to_pkg_refs) ++ [(ref.package, ref)]) := by
        have := (flatRefs_appendToBucket_perm idx.distrib_to_pkg_refs ref.distrib ref).map
          (fun r => (r.package, r))
        simpa [entriesOf, List.map_append] using this
      exact h1.trans h2.symm
    · simp only [List.map_append]
      refine List.Nodup.append hinv.pkg_keys_nodup (by simp) ?_
      intro a ha hb
      simp at hb
      subst hb
      exact hfresh ha

theorem build_inv_aux (refs : List PkgRef) :
    ∀ acc idx, (∀ r ∈ refs, normalize_distribution_name r.distrib = r.distrib) →
    IndexInv acc → refs.foldlM PkgRepoIndex.add_pkg_ref acc = .ok idx → IndexInv idx := by
  induction refs with
  | nil =>
    intro acc idx _ hinv h
    simp [List.foldlM_nil] at h
    injection h with h
    subst h
    exact hinv
  | cons r rest ih =>
    intro acc idx hnorm hinv h
    obtain ⟨mid, hmid, hrest⟩ := except_foldlM_cons_ok _ _ _ _ _ h
    exact ih mid idx (fun r2 hr2 => hnorm r2 (List.mem_cons_of_mem _ hr2))
      (add_preserves_inv (hnorm r (List.mem_cons_self _ _)) hmid hinv) hrest

theorem build_inv {refs : List PkgRef} {idx : PkgRepoIndex}
    (hnorm : ∀ r ∈ refs, normalize_distribution_name r.distrib = r.distrib)
    (hbuild : buildPkgRepoIndex refs = .ok idx) : IndexInv idx :=
  build_inv_aux refs PkgRepoIndex.empty idx hnorm inv_empty hbuild

theorem dump_mapM_aux (idx : PkgRepoIndex)
    (bs : List (String × List PkgRef))
    (h : ∀ b ∈ bs, idx.get_pkg_refs b.1 = some b.2) :
    (bs.map Prod.fst).mapM (fun d =>
      match idx.get_pkg_refs d with
      | some refs => Except.ok (d, refs)
      | none => Except.error (PyErr.typeError "NoneType object is not iterable")) =
      .ok bs := by
  induction bs with
  | nil => rfl
  | cons b rest ih =>
    obtain ⟨kb, bl⟩ := b
    have hb : idx.get_pkg_refs kb = some bl := h (kb, bl) (List.mem_cons_self _ _)
    simp only [List.map_cons, List.mapM_cons, hb]
    rw [ih (fun b2 hb2 => h b2 (List.mem_cons_of_mem _ hb2))]
    rfl

theorem dump_of_inv {idx : PkgRepoIndex} (hinv : IndexInv idx) :
    dump_pkg_repo_index idx = .ok idx.distrib_to_pkg_refs := by
  unfold dump_pkg_repo_index PkgRepoIndex.all_distributions
  exact dump_mapM_aux idx idx.distrib_to_pkg_refs (fun b hb => by
    unfold PkgRepoIndex.get_pkg_refs
    rw [hinv.keys_norm b hb]
    exact dictGet_of_mem hinv.keys_nodup (by simpa using hb))

theorem rebuild_inner (rs : List PkgRef) :
    ∀ (acc : PkgRepoIndex) (pre : List (String × List PkgRef)) (d : String)
      (bl : List PkgRef),
    acc.distrib_to_pkg_refs = pre ++ [(d, bl)] →
    d ∉ pre.map Prod.fst →
    (∀ r ∈ rs, r.distrib = d) →
    (acc.package_to_pkg_ref.map Prod.fst ++ rs.map (fun r => r.package)).Nodup →
    rs.foldlM PkgRepoIndex.add_pkg_ref acc =
      .ok ⟨pre ++ [(d, bl ++ rs)], acc.package_to_pkg_ref ++ entriesOf rs⟩ := by
  induction rs with
  | nil =>
    intro acc pre d bl hd2r hdpre _ _
    obtain ⟨d2r, p2r⟩ := acc
    simp only at hd2r
    subst hd2r
    simp [List.foldlM_nil, entriesOf]
    rfl
  | cons r rs ih =>
    intro acc pre d bl hd2r hdpre hdistrib hnd
    have hnd' := hnd
    rw [List.nodup_append] at hnd'
    have hfreshr : r.package ∉ acc.package_to_pkg_ref.map Prod.fst := by
      intro hmem
      exact hnd'.2.2 hmem (by simp)
    have hnone : dictGet acc.package_to_pkg_ref r.package = none :=
      (dictGet_eq_none_iff _ _).mpr hfreshr
    have hadd : acc.add_pkg_ref r = .ok ⟨pre ++ [(d, bl ++ [r])],
        acc.package_to_pkg_ref ++ [(r.package, r)]⟩ := by
      unfold PkgRepoIndex.add_pkg_ref
      rw [hnone]
      simp only [Option.isSome_none, Bool.false_eq_true, if_false]
      rw [hd2r, hdistrib r (List.mem_cons_self _ _), appendToBucket_last bl r hdpre]
    rw [List.foldlM_cons, hadd]
    show (rs.foldlM PkgRepoIndex.add_pkg_ref _) = _
    rw [ih ⟨pre ++ [(d, bl ++ [r])], acc.package_to_pkg_ref ++ [(r.package, r)]⟩ pre d
      (bl ++ [r]) rfl hdpre
      (fun r2 hr2 => hdistrib r2 (List.mem_cons_of_mem _ hr2))
      (by
        simp only [List.map_append]
        rw [List.append_assoc]
        simpa using hnd)]
    simp [entriesOf, List.append_assoc]

theorem rebuild_outer (bs : List (String × List PkgRef)) :
    ∀ (acc : PkgRepoIndex),
    ((acc.distrib_to_pkg_refs.map Prod.fst) ++ bs.map Prod.fst).Nodup →
    (∀ b ∈ bs, ∀ r ∈ b.2, r.distrib = b.1) →
    (∀ b ∈ bs, b.2 ≠ []) →
    ((acc.package_to_pkg_ref.map Prod.fst) ++ (flatRefs bs).map (fun r => r.package)).Nodup →
    (flatRefs bs).foldlM PkgRepoIndex.add_pkg_ref acc =
      .ok ⟨acc.distrib_to_pkg_refs ++ bs,
           acc.package_to_pkg_ref ++ entriesOf (flatRefs bs)⟩ := by
  induction bs with
  | nil =>
    intro acc _ _ _ _
    obtain ⟨d2r, p2r⟩ := acc
    simp [flatRefs, List.foldlM_nil, entriesOf]
    rfl
  | cons b rest ih =>
    intro acc hkeys hhomog hne hpkgs
    obtain ⟨d, bl⟩ := b
    cases bl with
    | nil => exact absurd rfl (hne (d, []) (List.mem_cons_self _ _))
    | cons b0 bl2 =>
      -- the first reference creates the bucket, the rest of the bucket
      -- is appended by rebuild_inner, then the remaining buckets by ih
      have hkeys' := hkeys
      rw [List.nodup_append] at hkeys'
      have hdfresh : d ∉ acc.distrib_to_pkg_refs.map Prod.fst := by
        intro hmem
        exact hkeys'.2.2 hmem (by simp)
      have hpkgs' := hpkgs
      rw [List.nodup_append] at hpkgs'
      have hb0fresh : b0.package ∉ acc.package_to_pkg_ref.map Prod.fst := by
        intro hmem
        refine hpkgs'.2.2 hmem ?_
        simp [flatRefs]
      have hnone : dictGet acc.package_to_pkg_ref b0.package = none :=
        (dictGet_eq_none_iff _ _).mpr hb0fresh
      have hb0d : b0.distrib = d :=
        hhomog (d, b0 :: bl2) (List.mem_cons_self _ _) b0 (by simp)
      have hadd : acc.add_pkg_ref b0 = .ok ⟨acc.distrib_to_pkg_refs ++ [(d, [b0])],
          acc.package_to_pkg_ref ++ [(b0.package, b0)]⟩ := by
        unfold PkgRepoIndex.add_pkg_ref
        rw [hnone]
        simp only [Option.isSome_none, Bool.false_eq_true, if_false]
        rw [hb0d, appendToBucket_fresh b0 hdfresh]
      have hflat : flatRefs ((d, b0 :: bl2) :: rest) =
          b0 :: (bl2 ++ flatRefs rest) := by
        simp [flatRefs]
      rw [hflat, List.foldlM_cons, hadd]
      show ((bl2 ++ flatRefs rest).foldlM PkgRepoIndex.add_pkg_ref _) = _
      rw [List.foldlM_append]
      have hinner := rebuild_inner bl2
        ⟨acc.distrib_to_pkg_refs ++ [(d, [b0])],
         acc.package_to_pkg_ref ++ [(b0.package, b0)]⟩
        acc.distrib_to_pkg_refs d [b0] rfl hdfresh
        (fun r2 hr2 => hhomog (d, b0 :: bl2) (List.mem_cons_self _ _) r2
          (List.mem_cons_of_mem _ hr2))
        (by
          simp only [List.map_append]
          rw [List.append_assoc]
          have hsub : acc.package_to_pkg_ref.map Prod.fst ++
              ([(b0.package, b0)].map Prod.fst ++ bl2.map (fun r => r.package)) =
              (acc.package_to_pkg_ref.map Prod.fst ++
                (b0.package :: bl2.map (fun r => r.package))) := by simp
          rw [hsub]
          have hall : acc.package_to_pkg_ref.map Prod.fst ++
              (flatRefs ((d, b0 :: bl2) :: rest)).map (fun r => r.package) =
              (acc.package_to_pkg_ref.map Prod.fst ++
                (b0.package :: (bl2.map (fun r => r.package) ++
                  (flatRefs rest).map (fun r => r.package)))) := by
            simp [flatRefs]
          rw [hall] at hpkgs
          rw [show acc.package_to_pkg_ref.map Prod.fst ++
              (b0.package :: (bl2.map (fun r => r.package) ++
                (flatRefs rest).map (fun r => r.package))) =
              (acc.package_to_pkg_ref.map Prod.fst ++
                (b0.package :: bl2.map (fun r => r.package))) ++
                (flatRefs rest).map (fun r => r.package) from by simp] at hpkgs
          exact hpkgs.of_append_left)
      rw [hinner]
      show ((flatRefs rest).foldlM PkgRepoIndex.add_pkg_ref _) = _
      have hih := ih ⟨acc.distrib_to_pkg_refs ++ [(d, [b0] ++ bl2)],
          (acc.package_to_pkg_ref ++ [(b0.package, b0)]) ++ entriesOf bl2⟩
        (by
          simp only [List.map_append]
          rw [List.append_assoc]
          simpa using hkeys)
        (fun b2 hb2 => hhomog b2 (List.mem_cons_of_mem _ hb2))
        (fun b2 hb2 => hne b2 (List.mem_cons_of_mem _ hb2))
        (by
          simp only [List.map_append, entriesOf_keys]
          rw [List.append_assoc, List.append_assoc]
          have hall : acc.package_to_pkg_ref.map Prod.fst ++
              ([(b0.package, b0)].map Prod.fst ++ (bl2.map (fun r => r.package) ++
                (flatRefs rest).map (fun r => r.package))) =
              acc.package_to_pkg_ref.map Prod.fst ++
                (flatRefs ((d, b0 :: bl2) :: rest)).map (fun r => r.package) := by
            simp [flatRefs]
          rw [hall]
          exact hpkgs)
      rw [hih]
      simp [entriesOf, flatRefs, List.append_assoc]

theorem flatMap_eq_flatRefs (l : List (String × List PkgRef)) :
    l.flatMap Prod.snd = flatRefs l := by
  induction l with
  | nil => rfl
  | cons b rest ih => simp [flatRefs, ih]

/-! ## Claim theorems -/

/-- Claim C6: for every index built by the bulk constructor from
references with normalized distribution names, dumping the index to its
serialized per-distribution form and loading it back reconstructs a
value-equal index: identical distribution buckets (same distributions,
same references under each, in the same order) and a package map that
answers every lookup identically. -/
theorem index_round_trip (refs : List PkgRef) (idx : PkgRepoIndex)
    (hnorm : ∀ r ∈ refs, normalize_distribution_name r.distrib = r.distrib)
    (hbuild : buildPkgRepoIndex refs = .ok idx) :
    ∃ idx2 : PkgRepoIndex,
      dump_pkg_repo_index idx = .ok idx.distrib_to_pkg_refs ∧
      load_pkg_repo_index idx.distrib_to_pkg_refs = .ok idx2 ∧
      idx2.distrib_to_pkg_refs = idx.distrib_to_pkg_refs ∧
      ∀ p, dictGet idx2.package_to_pkg_ref p = dictGet idx.package_to_pkg_ref p := by
  have hinv := build_inv hnorm hbuild
  have hpkgnd : ((flatRefs idx.distrib_to_pkg_refs).map (fun r => r.package)).Nodup := by
    have := ((hinv.pkg_perm.map Prod.fst).nodup_iff).mp hinv.pkg_keys_nodup
    rwa [entriesOf_keys] at this
  refine ⟨⟨idx.distrib_to_pkg_refs, entriesOf (flatRefs idx.distrib_to_pkg_refs)⟩,
    dump_of_inv hinv, ?_, rfl, ?_⟩
  · unfold load_pkg_repo_index buildPkgRepoIndex
    rw [flatMap_eq_flatRefs]
    have := rebuild_outer idx.distrib_to_pkg_refs PkgRepoIndex.empty
      (by simpa [PkgRepoIndex.empty] using hinv.keys_nodup)
      hinv.buckets_homog hinv.buckets_nonempty
      (by simpa [PkgRepoIndex.empty] using hpkgnd)
    simpa [PkgRepoIndex.empty] using this
  · intro p
    exact (perm_dictGet hinv.pkg_perm hinv.pkg_keys_nodup p).symm

/-- Witness for C6 at a concrete three-reference, two-distribution
index with interleaved insertion order. -/
theorem index_round_trip_witness :
    (∀ r ∈ [c6RefA1, c6RefB, c6RefA2],
      normalize_distribution_name r.distrib = r.distrib) ∧
    buildPkgRepoIndex [c6RefA1, c6RefB, c6RefA2] = .ok c6Index ∧
    (∃ idx2 : PkgRepoIndex,
      dump_pkg_repo_index c6Index = .ok c6Index.distrib_to_pkg_refs ∧
      load_pkg_repo_index c6Index.distrib_to_pkg_refs = .ok idx2 ∧
      idx2.distrib_to_pkg_refs = c6Index.distrib_to_pkg_refs ∧
      ∀ p, dictGet idx2.package_to_pkg_ref p = dictGet c6Index.package_to_pkg_ref p) :=
  ⟨by decide, by decide,
   index_round_trip [c6RefA1, c6RefB, c6RefA2] c6Index (by decide) (by decide)⟩

/-- Claim C1: inserting a reference whose package identifier is already
present in the index fails with the conflict error raised by
`add_pkg_ref` before either lookup structure is touched (the failed
insertion produces no new index, so both structures are exactly as they
were), and the same holds for any continuation of the insertion
sequence, covering the bulk constructor, which folds `add_pkg_ref`. -/
theorem add_pkg_ref_duplicate_conflict (idx : PkgRepoIndex) (ref : PkgRef) (r0 : PkgRef)
    (hdup : dictGet idx.package_to_pkg_ref ref.package = some r0) :
    idx.add_pkg_ref ref = .error ("package=" ++ ref.package ++ " duplicated.") ∧
    ∀ rest : List PkgRef, (ref :: rest).foldlM PkgRepoIndex.add_pkg_ref idx =
      .error ("package=" ++ ref.package ++ " duplicated.") := by
  have h1 : idx.add_pkg_ref ref = .error ("package=" ++ ref.package ++ " duplicated.") := by
    simp [PkgRepoIndex.add_pkg_ref, hdup]
  refine ⟨h1, fun rest => ?_⟩
  rw [List.foldlM_cons, h1]
  rfl

/-- Witness for C1 at a concrete one-entry index and a duplicate reference. -/
theorem add_pkg_ref_duplicate_conflict_witness :
    dictGet (PkgRepoIndex.mk [("pkg", [c1Ref])] [("pkg-1.0.tar.gz", c1Ref)]).package_to_pkg_ref
      c1Ref.package = some c1Ref ∧
    (PkgRepoIndex.mk [("pkg", [c1Ref])] [("pkg-1.0.tar.gz", c1Ref)]).add_pkg_ref c1Ref =
      .error "package=pkg-1.0.tar.gz duplicated." :=
  ⟨by decide, (add_pkg_ref_duplicate_conflict _ c1Ref c1Ref (by decide)).1⟩

/-- Claim C2: uploading `pkg-1.0.tar.gz` with metadata `{name: "Pkg"}`
into empty storage succeeds, storing the package file and a metadata
file whose `distrib` entry is the normalized name (`"pkg"`) and whose
`sha256` entry is the hex digest computed from the source file content;
repeating the identical upload (both files now present) fails with
`Package exists.` — a message containing `exists` — and leaves the
stored files untouched. -/
theorem upload_package_twice_conflict (sha256Hex : String → String) (path srcContent : String)
    (hs : (sha256Hex srcContent == "") = false) :
    uploadPackage sha256Hex true [] "pkg-1.0.tar.gz" [("name", "Pkg")] path srcContent =
      .ok ({ status := .SUCCEEDED, message := "" },
        [("pkg", [("pkg-1.0.tar.gz", .raw srcContent),
                  ("pkg-1.0.tar.gz.meta",
                   .toml [("name", "Pkg"), ("distrib", "pkg"),
                          ("sha256", sha256Hex srcContent)])])]) ∧
    normalize_distribution_name "Pkg" = "pkg" ∧
    uploadPackage sha256Hex true
      [("pkg", [("pkg-1.0.tar.gz", .raw srcContent),
                ("pkg-1.0.tar.gz.meta",
                 .toml [("name", "Pkg"), ("distrib", "pkg"),
                        ("sha256", sha256Hex srcContent)])])]
      "pkg-1.0.tar.gz" [("name", "Pkg")] path srcContent =
      .ok ({ status := .FAILED, message := "Package exists." },
        [("pkg", [("pkg-1.0.tar.gz", .raw srcContent),
                  ("pkg-1.0.tar.gz.meta",
                   .toml [("name", "Pkg"), ("distrib", "pkg"),
                          ("sha256", sha256Hex srcContent)])])]) ∧
    containsSub "Package exists." "exists" = true := by
  have hmk : mkUploadPackageContext sha256Hex "pkg-1.0.tar.gz" path srcContent
      [("name", "Pkg")] =
      if sha256Hex srcContent == "" then .error .assertionError
      else .ok ⟨"pkg-1.0.tar.gz", path,
        [("name", "Pkg"), ("distrib", "pkg"), ("sha256", sha256Hex srcContent)],
        false, ""⟩ := rfl
  rw [hs] at hmk
  simp only [Bool.false_eq_true, if_false] at hmk
  refine ⟨?_, by decide, ?_, by decide⟩
  · unfold uploadPackage
    rw [hmk]
    rfl
  · unfold uploadPackage
    rw [hmk]
    rfl

/-- Witness for C2 with a concrete digest function and file content. -/
theorem upload_package_twice_conflict_witness :
    (((fun _ : String => "d0") "CONTENT") == "") = false ∧
    uploadPackage (fun _ => "d0") true [] "pkg-1.0.tar.gz" [("name", "Pkg")]
      "/tmp/pkg-1.0.tar.gz" "CONTENT" =
      .ok ({ status := .SUCCEEDED, message := "" },
        [("pkg", [("pkg-1.0.tar.gz", .raw "CONTENT"),
                  ("pkg-1.0.tar.gz.meta",
                   .toml [("name", "Pkg"), ("distrib", "pkg"), ("sha256", "d0")])])]) :=
  ⟨by decide,
   (upload_package_twice_conflict (fun _ => "d0") "/tmp/pkg-1.0.tar.gz" "CONTENT"
     (by decide)).1⟩

/-- Claim C3 (divergence witness): calling `upload_package` with a
metadata map holding neither `distrib` nor `name` does not return a
FAILED result; `UploadPackageContext.__post_init__` sets the failure
message but then evaluates `assert self.meta_distrib`, whose access
`self.meta['distrib']` raises `KeyError('distrib')`, which propagates
out of `upload_package` for every storage state and lock outcome. -/
theorem upload_package_no_name_raises_key_error (sha256Hex : String → String)
    (lockAcquired : Bool) (st : Storage) (path srcContent : String) :
    uploadPackage sha256Hex lockAcquired st "pkg-1.0.tar.gz" [] path srcContent =
      .error (.keyError "distrib") := rfl

/-- Claim C4 (divergence witness): with storage holding `a.whl` paired
with `a.whl.meta` (plus unpaired `b.whl`), `collect_all_published_packages`
raises a pydantic validation error while constructing
`FileSystemPkgRef(package_path=..., meta_path=...)` — the inherited
required fields are never passed — instead of returning one reference
per paired stem; with only unpaired files it returns the empty list. -/
theorem collect_paired_raises_validation :
    collectAllPublishedPackages
      [("pkg", [("a.whl", .raw "A"), ("a.whl.meta", .toml [("k", "v")]),
                ("b.whl", .raw "B")])] =
      .error (.validationError
        "field required: distrib, package, ext, sha256, meta; package_path=a.whl meta_path=a.whl.meta") ∧
    collectAllPublishedPackages [("pkg", [("b.whl", .raw "B")])] = .ok [] := by
  constructor <;> decide

/-- Claim C7: when the per-filename exclusive lock cannot be acquired
within `LOCK_TIMEOUT` (0.5 s), `upload_package` returns a FAILED result
whose message mentions `timeout` and leaves storage exactly unchanged,
for every storage state and successfully constructed upload context. -/
theorem upload_package_lock_timeout (sha256Hex : String → String) (st : Storage)
    (filename path srcContent : String) (meta : List (String × String))
    (ctx : UploadPackageContext)
    (hctx : mkUploadPackageContext sha256Hex filename path srcContent meta = .ok ctx)
    (hnf : ctx.failed = false) :
    uploadPackage sha256Hex false st filename meta path srcContent =
      .ok ({ status := .FAILED, message := "_upload_package: Lock acquire timeout." }, st) ∧
    containsSub "_upload_package: Lock acquire timeout." "timeout" = true ∧
    LOCK_TIMEOUT = 1 / 2 := by
  refine ⟨?_, by decide, rfl⟩
  unfold uploadPackage
  rw [hctx]
  simp [hnf, uploadPackageLocked]

/-- Witness for C7 at a concrete context and empty storage. -/
theorem upload_package_lock_timeout_witness :
    mkUploadPackageContext (fun _ => "H") "pkg-1.0.tar.gz" "/tmp/f" "C" [("name", "Pkg")] =
      .ok ⟨"pkg-1.0.tar.gz", "/tmp/f",
           [("name", "Pkg"), ("distrib", "pkg"), ("sha256", "H")], false, ""⟩ ∧
    uploadPackage (fun _ => "H") false [] "pkg-1.0.tar.gz" [("name", "Pkg")] "/tmp/f" "C" =
      .ok ({ status := .FAILED, message := "_upload_package: Lock acquire timeout." }, []) :=
  ⟨by decide,
   (upload_package_lock_timeout (fun _ => "H") [] "pkg-1.0.tar.gz" "/tmp/f" "C"
     [("name", "Pkg")]
     ⟨"pkg-1.0.tar.gz", "/tmp/f", [("name", "Pkg"), ("distrib", "pkg"), ("sha256", "H")],
      false, ""⟩
     (by decide) (by decide)).1⟩

/-- Claim C8 (counterexample): a repository whose initialization failed
(missing cache directory) reports not-ready with its diagnostic, yet
`upload_package` does not short-circuit: it proceeds, succeeds, and
writes to storage. -/
theorem ready_false_upload_proceeds_counterexample :
    (fileSystemPkgRepoInit false).ready = (false, "Cache path not exists") ∧
    (fileSystemPkgRepoInit false).upload_package (fun _ => "H") true
        "pkg-1.0.tar.gz" [("name", "Pkg")] "/tmp/pkg-1.0.tar.gz" "CONTENT" =
      .ok ({ status := .SUCCEEDED, message := "" },
           { pvt_ready := false, pvt_err_msg := "Cache path not exists",
             storage := [("pkg", [("pkg-1.0.tar.gz", .raw "CONTENT"),
                                  ("pkg-1.0.tar.gz.meta",
                                   .toml [("name", "Pkg"), ("distrib", "pkg"),
                                          ("sha256", "H")])])] }) := by
  constructor <;> decide

/-- Claim C8 as amended: `ready()` reports false with the stored
diagnostic, but the storage operations never consult the readiness
state — `upload_package` and `collect_all_published_packages` behave
identically whether or not the instance is ready. -/
theorem ready_flag_not_consulted_by_storage_ops (st : FileSystemPkgRepoState)
    (hnr : st.pvt_ready = false) (sha256Hex : String → String) (lockAcquired : Bool)
    (filename : String) (meta : List (String × String)) (path srcContent : String) :
    st.ready = (false, st.pvt_err_msg) ∧
    (st.upload_package sha256Hex lockAcquired filename meta path srcContent).map
        (fun r : UploadPackageResult × FileSystemPkgRepoState => (r.1, r.2.storage)) =
      (({ st with pvt_ready := true, pvt_err_msg := "" }).upload_package
          sha256Hex lockAcquired filename meta path srcContent).map
        (fun r : UploadPackageResult × FileSystemPkgRepoState => (r.1, r.2.storage)) ∧
    st.collect_all_published_packages =
      ({ st with pvt_ready := true, pvt_err_msg := "" }).collect_all_published_packages := by
  refine ⟨?_, ?_, rfl⟩
  · simp [FileSystemPkgRepoState.ready, hnr]
  · unfold FileSystemPkgRepoState.upload_package
    cases uploadPackage sha256Hex lockAcquired st.storage filename meta path srcContent <;>
      simp [Except.map]

/-- Witness for the amended C8 at the failed-initialization state. -/
theorem ready_flag_not_consulted_by_storage_ops_witness :
    (fileSystemPkgRepoInit false).pvt_ready = false ∧
    (fileSystemPkgRepoInit false).ready = (false, (fileSystemPkgRepoInit false).pvt_err_msg) :=
  ⟨rfl, (ready_flag_not_consulted_by_storage_ops (fileSystemPkgRepoInit false) rfl
    (fun _ => "H") true "f" [] "p" "c").1⟩

/-- Claim C9 as amended: every registry constructor applied to a bundle
whose `type` tag is not registered fails, but with the bare
`AssertionError` raised by `_registration`'s membership assert, which
carries no message (in particular not "unknown backend type"). -/
theorem create_with_unknown_type_fails_bare_assert (reg : Registry) (kwargs : Kwargs)
    (t : String) (ht : dictGet kwargs "type" = some t) (hmiss : dictGet reg t = none) :
    create_pkg_repo_config reg kwargs = .error .assertionError ∧
    create_pkg_repo_secret reg kwargs = .error .assertionError ∧
    create_pkg_repo reg kwargs = .error .assertionError ∧
    create_pkg_ref reg kwargs = .error .assertionError := by
  have hr : registration reg kwargs = .error .assertionError := by
    simp [registration, ht, hmiss]
  refine ⟨?_, ?_, ?_, ?_⟩ <;>
    simp [create_pkg_repo_config, create_pkg_repo_secret, create_pkg_repo, create_pkg_ref,
      hr, Except.bind]

/-- Witness for the amended C9: dispatch on an unregistered type tag. -/
theorem create_with_unknown_type_fails_bare_assert_witness :
    dictGet [("type", "github")] "type" = some "github" ∧
    dictGet [("file_system", demoRegistration)] "github" = none ∧
    create_pkg_repo_config [("file_system", demoRegistration)] [("type", "github")] =
      .error .assertionError :=
  ⟨by decide, rfl,
   (create_with_unknown_type_fails_bare_assert [("file_system", demoRegistration)]
     [("type", "github")] "github" (by decide) rfl).1⟩

/-- Claim C9 (counterexample): at a concrete unregistered type tag the
constructors fail with a bare `AssertionError` whose message is empty
and in particular does not contain "unknown backend type". -/
theorem create_unknown_type_no_message_counterexample :
    create_pkg_repo_config [("file_system", demoRegistration)] [("type", "github")] =
      .error .assertionError ∧
    create_pkg_repo_secret [("file_system", demoRegistration)] [("type", "github")] =
      .error .assertionError ∧
    containsSub (PyErr.message .assertionError) "unknown backend type" = false :=
  ⟨rfl, rfl, by decide⟩

/-- Claim C10: for every file store, path and collection of secrets,
`dump_pkg_repo_secrets` raises `NotImplementedError` immediately and
the file store is exactly unchanged — secrets are load-only. -/
theorem dump_pkg_repo_secrets_fails_fast (fs : FileStore) (path : String)
    (secrets : List PkgRepoSecret) :
    dump_pkg_repo_secrets fs path secrets =
      (.error (.notImplementedError "Should not dump secrets."), fs) ∧
    (dump_pkg_repo_secrets fs path secrets).2 = fs := ⟨rfl, rfl⟩
